import Mathlib

/-!
Shallow embedding of the Images-Combiner program (`src/main.rs`).

Byte buffers (`Vec<u8>`) are `List Nat`; operations that can abort the
process (index out of bounds in `set_rgba`, out-of-range `splice`) return
`Option`, with `none` standing for the abort.  `u32` arithmetic that can
wrap is taken modulo `2^32`.  Decoded images (`DynamicImage`) are a free
algebra: `resize_exact` is a constructor, so an invocation of the external
resampler is observable in the result.  The external resampler's byte
output is a parameter `R` of the pipeline.
-/

/-- `2^32`, the modulus of `u32` arithmetic. -/
def u32Mod : Nat := 4294967296

/-- The error enum `ImageDataErrors` of `main.rs` (payloads that are
external error values are dropped; the `String` path payload is kept). -/
inductive ImageDataErrors where
  | differentImageFormats
  | bufferTooSmall
  | unableToReadImageFromPath
  | unableToFormatImage (path : String)
  | unableToDecodeImage
  | unableToSaveImage
deriving DecidableEq, Repr

/-- Container formats (`image::ImageFormat`), compared only for equality. -/
inductive ImageFormat where
  | png
  | jpeg
  | other (tag : Nat)
deriving DecidableEq, Repr

/-- A decoded image (`DynamicImage`): either a source image carrying its
RGBA8 byte buffer, or the result of `resize_exact` applied to an image.
`resize_exact` being a constructor makes resampler invocations visible. -/
inductive DynImage where
  | src (w h : Nat) (pixels : List Nat)
  | resized (base : DynImage) (w h : Nat)
deriving DecidableEq, Repr

/-- `image.dimensions()` (also `width()`/`height()`). -/
def DynImage.dimensions : DynImage → Nat × Nat
  | .src w h _ => (w, h)
  | .resized _ w h => (w, h)

/-- `image.resize_exact(w, h, Triangle)`: invokes the external resampler. -/
def DynImage.resize_exact (img : DynImage) (w h : Nat) : DynImage :=
  .resized img w h

/-- `image.to_rgba8().into_vec()`, parametrised by the external resampler's
byte output `R` (triangle-filter interpolation is an external capability). -/
def DynImage.to_rgba8 (R : DynImage → Nat → Nat → List Nat) : DynImage → List Nat
  | .src _ _ pixels => pixels
  | .resized base w h => R base w h

/-- Loop of `set_rgba`: `for i in idx..(idx+n) { vec.get(i) → push | abort }`.
`none` models the `panic!("Index out of bounds")` branch. -/
def set_rgba_go (vec : List Nat) : Nat → Nat → Option (List Nat)
  | 0, _ => some []
  | n + 1, idx =>
    match vec[idx]? with
    | none => none
    | some d =>
      match set_rgba_go vec n (idx + 1) with
      | none => none
      | some rest => some (d :: rest)

/-- `set_rgba(vec, start, end)`: copies `vec[start..=end]`, aborting on an
out-of-bounds index.  `start..=end` iterates `end + 1 - start` indices. -/
def set_rgba (vec : List Nat) (start stop : Nat) : Option (List Nat) :=
  set_rgba_go vec (stop + 1 - start) start

/-- `combined_data.splice(i..=i+3, repl)`: replaces the 4-byte window at
`i` by `repl`.  `none` models the out-of-range panic of `splice`. -/
def splice4 (l : List Nat) (i : Nat) (repl : List Nat) : Option (List Nat) :=
  if i + 4 ≤ l.length then some (l.take i ++ repl ++ l.drop (i + 4)) else none

/-- The `while i < vec_1.len()` loop of `alternative_pixels`, structurally
recursive on a fuel counter (one unit per iteration; `alternative_pixels`
supplies `vec_1.length`, which lemma `alternative_pixels_go_spec` shows is
enough).  Exhausted fuel yields `none`, so every `some` result is a genuine
loop exit. -/
def alternative_pixels_go (v1 v2 : List Nat) : Nat → List Nat → Nat → Option (List Nat)
  | fuel, combined, i =>
    if i < v1.length then
      match fuel with
      | 0 => none
      | fuel' + 1 =>
        match (if i % 8 = 0 then set_rgba v1 i (i + 3) else set_rgba v2 i (i + 3)) with
        | none => none
        | some r =>
          match splice4 combined i r with
          | none => none
          | some c => alternative_pixels_go v1 v2 fuel' c (i + 4)
    else some combined

/-- `alternative_pixels(vec_1, vec_2)`: zero-initialised output of
`vec_1`'s length, then the 4-byte-stride interleaving loop. -/
def alternative_pixels (v1 v2 : List Nat) : Option (List Nat) :=
  alternative_pixels_go v1 v2 v1.length (List.replicate v1.length 0) 0

/-- `combine_images(image_1, image_2)` with resampler parameter `R`. -/
def combine_images (R : DynImage → Nat → Nat → List Nat)
    (image_1 image_2 : DynImage) : Option (List Nat) :=
  alternative_pixels (image_1.to_rgba8 R) (image_2.to_rgba8 R)

/-- `get_smallest_dimensions(dim_1, dim_2)`: compares `u32` pixel areas. -/
def get_smallest_dimensions (dim_1 dim_2 : Nat × Nat) : Nat × Nat :=
  let pix_1 := dim_1.1 * dim_1.2 % u32Mod
  let pix_2 := dim_2.1 * dim_2.2 % u32Mod
  if pix_1 < pix_2 then dim_1 else dim_2

/-- `standardise_size(image_1, image_2)` (the `println!` is dropped). -/
def standardise_size (image_1 image_2 : DynImage) : DynImage × DynImage :=
  let wh := get_smallest_dimensions image_1.dimensions image_2.dimensions
  if image_2.dimensions = wh then
    (image_1.resize_exact wh.1 wh.2, image_2)
  else (image_1, image_2.resize_exact wh.1 wh.2)

/-- A `Vec<u8>` with its capacity (Rust's length/capacity distinction). -/
structure Vec8 where
  elems : List Nat
  cap : Nat
deriving DecidableEq, Repr

/-- The `FloatingImage` struct. -/
structure FloatingImage where
  width : Nat
  height : Nat
  data : Vec8
  name : String
deriving DecidableEq, Repr

/-- `FloatingImage::new`: empty buffer of capacity `height * width * 4`
(`u32` multiplication, hence the modulus). -/
def FloatingImage.new (width height : Nat) (name : String) : FloatingImage :=
  { width := width, height := height
    data := { elems := [], cap := height * width * 4 % u32Mod }
    name := name }

/-- `FloatingImage::set_data`: rejects data longer than the current
buffer's capacity, otherwise replaces the buffer.  Returned pair is
(`Result`, the struct after the call — `&mut self` made explicit). -/
def FloatingImage.set_data (img : FloatingImage) (data : Vec8) :
    Except ImageDataErrors Unit × FloatingImage :=
  if data.elems.length > img.data.cap then
    (.error .bufferTooSmall, img)
  else
    (.ok (), { img with data := data })

/-- What the decoder finds at a path: the external outcome feeding
`find_image_from_path` (`Reader::open` / `format()` / `decode()`). -/
inductive FileProbe where
  | openErr
  | noFormat
  | decodeFail
  | image (img : DynImage) (fmt : ImageFormat)
deriving DecidableEq, Repr

/-- `find_image_from_path(path)` over the abstract probe outcome. -/
def find_image_from_path (probe : FileProbe) (path : String) :
    Except ImageDataErrors (DynImage × ImageFormat) :=
  match probe with
  | .openErr => .error .unableToReadImageFromPath
  | .noFormat => .error (.unableToFormatImage path)
  | .decodeFail => .error .unableToDecodeImage
  | .image img fmt => .ok (img, fmt)

/-- The single output file written by `image::save_buffer_with_format`. -/
structure SavedFile where
  name : String
  data : List Nat
  width : Nat
  height : Nat
  format : ImageFormat
deriving DecidableEq, Repr

/-- `main()`: the pipeline over abstract inputs.  `R` is the external
resampler's byte output, `p1`/`p2` what the decoder finds at the two input
paths, `saveOk` whether the external encoder succeeds.  The outer `Option`
is `none` on a process abort inside `alternative_pixels`; `.ok` carries
the one file written, so an `.error` result means no file was created. -/
def main' (R : DynImage → Nat → Nat → List Nat) (p1 : FileProbe) (path1 : String)
    (p2 : FileProbe) (path2 : String) (outName : String) (saveOk : Bool) :
    Option (Except ImageDataErrors SavedFile) :=
  match find_image_from_path p1 path1 with
  | .error e => some (.error e)
  | .ok (image_1, image_format_1) =>
    match find_image_from_path p2 path2 with
    | .error e => some (.error e)
    | .ok (image_2, image_format_2) =>
      if image_format_1 ≠ image_format_2 then
        some (.error .differentImageFormats)
      else
        let std := standardise_size image_1 image_2
        let output := FloatingImage.new std.1.dimensions.1 std.1.dimensions.2 outName
        match combine_images R std.1 std.2 with
        | none => none
        | some combined_data =>
          match output.set_data { elems := combined_data, cap := combined_data.length } with
          | (.error e, _) => some (.error e)
          | (.ok _, output') =>
            if saveOk then
              some (.ok { name := output'.name, data := output'.data.elems
                          width := output'.width, height := output'.height
                          format := image_format_1 })
            else some (.error .unableToSaveImage)

/-!
## Characterisation of the interleaving loop

`mergeSpec` is the spec-side description of §4.3: byte `j` of the merged
buffer comes from `bufA` when the pixel index `j / 4` is even (equivalently
`j % 8 < 4`), from `bufB` otherwise, and the merged buffer has `bufA`'s
length.  The lemmas below show `alternative_pixels` refines it.
-/

/-- Spec-side merge (§4.3): windows `[i, i+4)` with `i % 8 == 0` from
`v1`, the others from `v2`; for a single byte `j` that is `j % 8 < 4`. -/
def mergeSpec (v1 v2 : List Nat) : List Nat :=
  (List.range v1.length).map (fun j => if j % 8 < 4 then v1.getD j 0 else v2.getD j 0)

theorem mergeSpec_length (v1 v2 : List Nat) : (mergeSpec v1 v2).length = v1.length := by
  simp [mergeSpec]

theorem mergeSpec_getElem (v1 v2 : List Nat) (j : Nat) (h : j < (mergeSpec v1 v2).length) :
    (mergeSpec v1 v2)[j] = if j % 8 < 4 then v1.getD j 0 else v2.getD j 0 := by
  simp [mergeSpec]

theorem set_rgba_go_some (v : List Nat) :
    ∀ (n idx : Nat), idx + n ≤ v.length →
      set_rgba_go v n idx = some ((List.range n).map (fun k => v.getD (idx + k) 0)) := by
  intro n
  induction n with
  | zero => intro idx _; simp [set_rgba_go]
  | succ m ih =>
    intro idx h
    have hidx : idx < v.length := by omega
    have h1 : v[idx]? = some (v.getD idx 0) := by
      rw [List.getElem?_eq_getElem hidx, List.getD_eq_getElem v 0 hidx]
    have h2 := ih (idx + 1) (by omega)
    have h3 : (fun k => v.getD (idx + 1 + k) 0) = (fun k => v.getD (idx + Nat.succ k) 0) := by
      funext k
      congr 1
      omega
    simp only [set_rgba_go, h1, h2, List.range_succ_eq_map, List.map_cons, List.map_map,
      Function.comp_def, Nat.add_zero, h3]

theorem set_rgba_go_none (v : List Nat) :
    ∀ (n idx : Nat), 1 ≤ n → v.length < idx + n → set_rgba_go v n idx = none := by
  intro n
  induction n with
  | zero => intro idx h _; omega
  | succ m ih =>
    intro idx _ hlen
    by_cases hidx : idx < v.length
    · have h1 : v[idx]? = some v[idx] := List.getElem?_eq_getElem hidx
      have h2 := ih (idx + 1) (by omega) (by omega)
      simp only [set_rgba_go, h1, h2]
    · have h1 : v[idx]? = none := List.getElem?_eq_none (by omega)
      simp only [set_rgba_go, h1]

/-- In-bounds `set_rgba` on a 4-byte window copies exactly that window. -/
theorem set_rgba_window (v : List Nat) (i : Nat) (h : i + 4 ≤ v.length) :
    set_rgba v i (i + 3) =
      some [v.getD i 0, v.getD (i + 1) 0, v.getD (i + 2) 0, v.getD (i + 3) 0] := by
  have h4 : i + 3 + 1 - i = 4 := by omega
  rw [set_rgba, h4, set_rgba_go_some v 4 i h]
  rfl

/-- An out-of-bounds 4-byte window makes `set_rgba` abort. -/
theorem set_rgba_oob (v : List Nat) (i : Nat) (h : v.length < i + 4) :
    set_rgba v i (i + 3) = none := by
  have h4 : i + 3 + 1 - i = 4 := by omega
  rw [set_rgba, h4]
  exact set_rgba_go_none v 4 i (by omega) (by omega)

theorem splice4_some (l : List Nat) (i : Nat) (repl : List Nat) (h : i + 4 ≤ l.length) :
    splice4 l i repl = some (l.take i ++ repl ++ l.drop (i + 4)) := by
  rw [splice4, if_pos h]

/-- The first four bytes of `v.drop i`, spelled out. -/
theorem take4_drop (v : List Nat) (i : Nat) (h : i + 4 ≤ v.length) :
    (v.drop i).take 4 =
      [v.getD i 0, v.getD (i + 1) 0, v.getD (i + 2) 0, v.getD (i + 3) 0] := by
  rw [List.drop_eq_getElem_cons (show i < v.length by omega)]
  rw [List.drop_eq_getElem_cons (show i + 1 < v.length by omega)]
  rw [List.drop_eq_getElem_cons (show i + 1 + 1 < v.length by omega)]
  rw [List.drop_eq_getElem_cons (show i + 1 + 1 + 1 < v.length by omega)]
  simp only [List.getD_eq_getElem v 0 (show i < v.length by omega),
    List.getD_eq_getElem v 0 (show i + 1 < v.length by omega),
    List.getD_eq_getElem v 0 (show i + 2 < v.length by omega),
    List.getD_eq_getElem v 0 (show i + 3 < v.length by omega)]
  have e2 : i + 1 + 1 = i + 2 := by omega
  have e3 : i + 1 + 1 + 1 = i + 3 := by omega
  simp only [e2, e3]
  rfl

/-- Loop invariant of `alternative_pixels_go`: with enough fuel, buffers of
adequate length and a 4-aligned index, the loop rewrites the suffix of
`combined` from position `i` on into `mergeSpec v1 v2`'s suffix. -/
theorem alternative_pixels_go_spec (v1 v2 : List Nat) (hlen : v1.length ≤ v2.length)
    (h4L : 4 ∣ v1.length) :
    ∀ (fuel i : Nat) (combined : List Nat), combined.length = v1.length → 4 ∣ i →
      i ≤ v1.length → v1.length ≤ i + 4 * fuel →
      alternative_pixels_go v1 v2 fuel combined i
        = some (combined.take i ++ (mergeSpec v1 v2).drop i) := by
  intro fuel
  induction fuel with
  | zero =>
    intro i combined hc h4i hi hfuel
    have hie : i = v1.length := by omega
    rw [alternative_pixels_go, if_neg (by omega)]
    rw [List.take_of_length_le (by omega), List.drop_eq_nil_of_le (by rw [mergeSpec_length]; omega)]
    rw [List.append_nil]
  | succ fuel' ih =>
    intro i combined hc h4i hi hfuel
    by_cases hlt : i < v1.length
    · have hi4 : i + 4 ≤ v1.length := by omega
      have hi4c : i + 4 ≤ combined.length := by omega
      have hi4b : i + 4 ≤ v2.length := by omega
      have hwin1 := set_rgba_window v1 i hi4
      have hwin2 := set_rgba_window v2 i hi4b
      have hm8 : i % 8 = 0 ∨ i % 8 = 4 := by omega
      -- the window read in either branch, as entries of mergeSpec
      have hr : (if i % 8 = 0 then set_rgba v1 i (i + 3) else set_rgba v2 i (i + 3))
          = some ((mergeSpec v1 v2).drop i |>.take 4) := by
        have hms : i + 4 ≤ (mergeSpec v1 v2).length := by rw [mergeSpec_length]; omega
        rw [take4_drop _ i hms]
        have g0 : i < (mergeSpec v1 v2).length := by omega
        have g1 : i + 1 < (mergeSpec v1 v2).length := by omega
        have g2 : i + 2 < (mergeSpec v1 v2).length := by omega
        have g3 : i + 3 < (mergeSpec v1 v2).length := by omega
        rcases hm8 with h8 | h8
        · rw [if_pos h8, hwin1]
          simp only [List.getD_eq_getElem _ 0 g0, List.getD_eq_getElem _ 0 g1,
            List.getD_eq_getElem _ 0 g2, List.getD_eq_getElem _ 0 g3,
            mergeSpec_getElem, if_pos (show i % 8 < 4 by omega),
            if_pos (show (i + 1) % 8 < 4 by omega), if_pos (show (i + 2) % 8 < 4 by omega),
            if_pos (show (i + 3) % 8 < 4 by omega)]
        · rw [if_neg (by omega), hwin2]
          simp only [List.getD_eq_getElem _ 0 g0, List.getD_eq_getElem _ 0 g1,
            List.getD_eq_getElem _ 0 g2, List.getD_eq_getElem _ 0 g3,
            mergeSpec_getElem, if_neg (show ¬ i % 8 < 4 by omega),
            if_neg (show ¬ (i + 1) % 8 < 4 by omega),
            if_neg (show ¬ (i + 2) % 8 < 4 by omega),
            if_neg (show ¬ (i + 3) % 8 < 4 by omega)]
      set r := (mergeSpec v1 v2).drop i |>.take 4 with hrdef
      have hrlen : r.length = 4 := by
        rw [hrdef, List.length_take, List.length_drop, mergeSpec_length]
        omega
      have hspl := splice4_some combined i r hi4c
      set c := combined.take i ++ r ++ combined.drop (i + 4) with hcdef
      have hclen : c.length = v1.length := by
        rw [hcdef]
        simp only [List.length_append, List.length_take, List.length_drop]
        omega
      have hrec := ih (i + 4) c hclen (by omega) (by omega) (by omega)
      rw [alternative_pixels_go, if_pos hlt]
      simp only [hr, hspl, hrec]
      -- assemble: c.take (i+4) ++ tail = combined.take i ++ drop i
      have htake : c.take (i + 4) = combined.take i ++ r := by
        have lA : (combined.take i).length = i := by rw [List.length_take]; omega
        have lAr : (combined.take i ++ r).length = i + 4 := by
          rw [List.length_append, lA, hrlen]
        rw [hcdef, List.take_append_eq_append_take, lAr, Nat.sub_self, List.take_zero,
          List.append_nil]
        exact List.take_of_length_le (Nat.le_of_eq lAr)
      have hdropmerge : (mergeSpec v1 v2).drop i = r ++ (mergeSpec v1 v2).drop (i + 4) := by
        have hms : i + 4 ≤ (mergeSpec v1 v2).length := by rw [mergeSpec_length]; omega
        rw [hrdef, take4_drop _ i hms]
        rw [List.drop_eq_getElem_cons (show i < (mergeSpec v1 v2).length by omega)]
        rw [List.drop_eq_getElem_cons (show i + 1 < (mergeSpec v1 v2).length by omega)]
        rw [List.drop_eq_getElem_cons (show i + 1 + 1 < (mergeSpec v1 v2).length by omega)]
        rw [List.drop_eq_getElem_cons (show i + 1 + 1 + 1 < (mergeSpec v1 v2).length by omega)]
        have e2 : i + 1 + 1 = i + 2 := by omega
        have e3 : i + 1 + 1 + 1 = i + 3 := by omega
        have e4 : i + 1 + 1 + 1 + 1 = i + 4 := by omega
        have g0 : i < (mergeSpec v1 v2).length := by omega
        have g1 : i + 1 < (mergeSpec v1 v2).length := by omega
        have g2 : i + 2 < (mergeSpec v1 v2).length := by omega
        have g3 : i + 3 < (mergeSpec v1 v2).length := by omega
        simp only [e2, e3, e4, List.getD_eq_getElem _ 0 g0, List.getD_eq_getElem _ 0 g1,
          List.getD_eq_getElem _ 0 g2, List.getD_eq_getElem _ 0 g3, List.cons_append,
          List.nil_append]
      rw [htake, List.append_assoc, ← hdropmerge]
    · rw [alternative_pixels_go, if_neg hlt]
      have hie : i = v1.length := by omega
      rw [List.take_of_length_le (by omega),
        List.drop_eq_nil_of_le (by rw [mergeSpec_length]; omega), List.append_nil]

/-- Under the upstream preconditions (`v1` no longer than `v2`, length a
multiple of 4) the loop never aborts and computes exactly `mergeSpec`. -/
theorem alternative_pixels_eq_mergeSpec (v1 v2 : List Nat) (hlen : v1.length ≤ v2.length)
    (h4 : 4 ∣ v1.length) : alternative_pixels v1 v2 = some (mergeSpec v1 v2) := by
  rw [alternative_pixels,
    alternative_pixels_go_spec v1 v2 hlen h4 v1.length 0 (List.replicate v1.length 0)
      (List.length_replicate _ _) ⟨0, rfl⟩ (by omega) (by omega)]
  rw [List.take_zero, List.drop_zero, List.nil_append]

theorem mergeSpec_getD (v1 v2 : List Nat) (j : Nat) (h : j < v1.length) :
    (mergeSpec v1 v2).getD j 0 = if j % 8 < 4 then v1.getD j 0 else v2.getD j 0 := by
  have hm : j < (mergeSpec v1 v2).length := by rw [mergeSpec_length]; omega
  rw [List.getD_eq_getElem _ 0 hm, mergeSpec_getElem]

/-- A 4-aligned window of `mergeSpec` is the matching window of `v1` when
`i % 8 == 0`, of `v2` otherwise. -/
theorem mergeSpec_window (v1 v2 : List Nat) (hlen : v1.length ≤ v2.length) (i : Nat)
    (h4i : 4 ∣ i) (hi : i + 4 ≤ v1.length) :
    ((mergeSpec v1 v2).drop i).take 4 =
      if i % 8 = 0 then (v1.drop i).take 4 else (v2.drop i).take 4 := by
  have hms : i + 4 ≤ (mergeSpec v1 v2).length := by rw [mergeSpec_length]; omega
  rw [take4_drop _ i hms]
  have hm8 : i % 8 = 0 ∨ i % 8 = 4 := by omega
  rcases hm8 with h8 | h8
  · rw [if_pos h8, take4_drop v1 i (by omega)]
    rw [mergeSpec_getD v1 v2 i (by omega), mergeSpec_getD v1 v2 (i + 1) (by omega),
      mergeSpec_getD v1 v2 (i + 2) (by omega), mergeSpec_getD v1 v2 (i + 3) (by omega),
      if_pos (show i % 8 < 4 by omega), if_pos (show (i + 1) % 8 < 4 by omega),
      if_pos (show (i + 2) % 8 < 4 by omega), if_pos (show (i + 3) % 8 < 4 by omega)]
  · rw [if_neg (show ¬ i % 8 = 0 by omega), take4_drop v2 i (by omega)]
    rw [mergeSpec_getD v1 v2 i (by omega), mergeSpec_getD v1 v2 (i + 1) (by omega),
      mergeSpec_getD v1 v2 (i + 2) (by omega), mergeSpec_getD v1 v2 (i + 3) (by omega),
      if_neg (show ¬ i % 8 < 4 by omega), if_neg (show ¬ (i + 1) % 8 < 4 by omega),
      if_neg (show ¬ (i + 2) % 8 < 4 by omega), if_neg (show ¬ (i + 3) % 8 < 4 by omega)]

/-- Bytes of `v2` beyond `v1.length` never enter the merge. -/
theorem mergeSpec_take (v1 v2 : List Nat) (h : v1.length ≤ v2.length) :
    mergeSpec v1 (v2.take v1.length) = mergeSpec v1 v2 := by
  unfold mergeSpec
  apply List.map_congr_left
  intro j hj
  have hjlt : j < v1.length := List.mem_range.mp hj
  by_cases h8 : j % 8 < 4
  · rw [if_pos h8, if_pos h8]
  · rw [if_neg h8, if_neg h8]
    have hlt2 : j < (v2.take v1.length).length := by rw [List.length_take]; omega
    rw [List.getD_eq_getElem _ 0 hlt2, List.getD_eq_getElem _ 0 (show j < v2.length by omega),
      List.getElem_take]

theorem get_smallest_dimensions_cases (d1 d2 : Nat × Nat) :
    get_smallest_dimensions d1 d2 = d1 ∨ get_smallest_dimensions d1 d2 = d2 := by
  simp only [get_smallest_dimensions]
  split
  · exact Or.inl rfl
  · exact Or.inr rfl

/-- C1: for equal-length buffers whose length is a multiple of 4,
`alternative_pixels` fills each 4-aligned 4-byte window at offset `i` from
`bufA` when `i % 8 == 0` and from `bufB` otherwise (the 16-byte
`0x11`/`0x22` instance is the witness below). -/
theorem alternative_pixels_window_pattern (v1 v2 : List Nat) (L : Nat)
    (h1 : v1.length = L) (h2 : v2.length = L) (h4 : 4 ∣ L) :
    ∃ out, alternative_pixels v1 v2 = some out ∧
      ∀ i, 4 ∣ i → i + 4 ≤ L →
        (out.drop i).take 4 =
          if i % 8 = 0 then (v1.drop i).take 4 else (v2.drop i).take 4 := by
  refine ⟨mergeSpec v1 v2, alternative_pixels_eq_mergeSpec v1 v2 (by omega) (by omega), ?_⟩
  intro i h4i hiL
  exact mergeSpec_window v1 v2 (by omega) i h4i (by omega)

theorem alternative_pixels_window_pattern_witness :
    (∃ out, alternative_pixels (List.replicate 16 17) (List.replicate 16 34) = some out ∧
      ∀ i, 4 ∣ i → i + 4 ≤ 16 →
        (out.drop i).take 4 =
          if i % 8 = 0 then ((List.replicate 16 17 : List Nat).drop i).take 4
          else ((List.replicate 16 34 : List Nat).drop i).take 4) ∧
    alternative_pixels (List.replicate 16 17) (List.replicate 16 34) =
      some [17, 17, 17, 17, 34, 34, 34, 34, 17, 17, 17, 17, 34, 34, 34, 34] :=
  ⟨alternative_pixels_window_pattern (List.replicate 16 17) (List.replicate 16 34) 16
      (by decide) (by decide) (by decide),
    by decide⟩

/-- C2 counterexample: at the equal-area pair `(1,4)` vs `(2,2)` the code
returns the second argument, not the first as the claim states. -/
theorem get_smallest_dimensions_tie_cex :
    get_smallest_dimensions (1, 4) (2, 2) = (2, 2) ∧
    (1 : Nat) * 4 = 2 * 2 ∧
    get_smallest_dimensions (1, 4) (2, 2) ≠ (1, 4) := by decide

/-- C2 (amended): `get_smallest_dimensions` returns the pair with strictly
smaller area; when the two areas are equal it returns `dim_2`, the SECOND
argument (areas compared after `u32` reduction, trivial in range). -/
theorem get_smallest_dimensions_spec (d1 d2 : Nat × Nat)
    (h1 : d1.1 * d1.2 < u32Mod) (h2 : d2.1 * d2.2 < u32Mod) :
    (d1.1 * d1.2 < d2.1 * d2.2 → get_smallest_dimensions d1 d2 = d1) ∧
    (d2.1 * d2.2 < d1.1 * d1.2 → get_smallest_dimensions d1 d2 = d2) ∧
    (d1.1 * d1.2 = d2.1 * d2.2 → get_smallest_dimensions d1 d2 = d2) := by
  have e : get_smallest_dimensions d1 d2 =
      if d1.1 * d1.2 < d2.1 * d2.2 then d1 else d2 := by
    simp only [get_smallest_dimensions, Nat.mod_eq_of_lt h1, Nat.mod_eq_of_lt h2]
  refine ⟨fun h => ?_, fun h => ?_, fun h => ?_⟩
  · rw [e, if_pos h]
  · rw [e, if_neg (by omega)]
  · rw [e, if_neg (by omega)]

theorem get_smallest_dimensions_spec_witness :
    (2 : Nat) * 3 < u32Mod ∧ (1 : Nat) * 4 < u32Mod ∧ (1 : Nat) * 4 < 2 * 3 ∧
    get_smallest_dimensions (2, 3) (1, 4) = (1, 4) :=
  ⟨by decide, by decide, by decide,
    (get_smallest_dimensions_spec (2, 3) (1, 4) (by decide) (by decide)).2.1 (by decide)⟩

/-- C3 counterexample: two 4×4 images both already at the target
dimensions, yet `standardise_size` resamples the first image. -/
theorem standardise_size_no_resample_cex :
    standardise_size (.src 4 4 []) (.src 4 4 [])
        = (.resized (.src 4 4 []) 4 4, .src 4 4 []) ∧
    (DynImage.src 4 4 []).dimensions =
      get_smallest_dimensions (DynImage.src 4 4 []).dimensions
        (DynImage.src 4 4 []).dimensions ∧
    (standardise_size (.src 4 4 []) (.src 4 4 [])).1 ≠ .src 4 4 [] := by decide

/-- C3 (amended): resampling is keyed on `image_2` alone: when `image_2`'s
dimensions equal the reconciled target, `image_1` is resampled — even if it
already matches the target — and `image_2` passes through unchanged;
otherwise `image_2` is resampled and `image_1`, which then necessarily
matches the target, passes through unchanged. -/
theorem standardise_size_spec (image_1 image_2 : DynImage) :
    (image_2.dimensions = get_smallest_dimensions image_1.dimensions image_2.dimensions →
      standardise_size image_1 image_2 =
        (image_1.resize_exact
          (get_smallest_dimensions image_1.dimensions image_2.dimensions).1
          (get_smallest_dimensions image_1.dimensions image_2.dimensions).2, image_2)) ∧
    (image_2.dimensions ≠ get_smallest_dimensions image_1.dimensions image_2.dimensions →
      standardise_size image_1 image_2 =
        (image_1, image_2.resize_exact
          (get_smallest_dimensions image_1.dimensions image_2.dimensions).1
          (get_smallest_dimensions image_1.dimensions image_2.dimensions).2) ∧
      image_1.dimensions = get_smallest_dimensions image_1.dimensions image_2.dimensions) := by
  constructor
  · intro h
    simp only [standardise_size, if_pos h]
  · intro h
    refine ⟨by simp only [standardise_size, if_neg h], ?_⟩
    rcases get_smallest_dimensions_cases image_1.dimensions image_2.dimensions with hc | hc
    · exact hc.symm
    · exact absurd hc.symm h

theorem standardise_size_spec_witness :
    (DynImage.src 2 2 []).dimensions =
      get_smallest_dimensions (DynImage.src 4 4 []).dimensions
        (DynImage.src 2 2 []).dimensions ∧
    standardise_size (.src 4 4 []) (.src 2 2 [])
      = (.resized (.src 4 4 []) 2 2, .src 2 2 []) :=
  ⟨by decide, (standardise_size_spec (.src 4 4 []) (.src 2 2 [])).1 (by decide)⟩

/-- C4: for equal-length buffers whose length `L` is a multiple of 4,
`alternative_pixels` succeeds and its output has length `L`. -/
theorem alternative_pixels_length (v1 v2 : List Nat) (L : Nat)
    (h1 : v1.length = L) (h2 : v2.length = L) (h4 : 4 ∣ L) :
    ∃ out, alternative_pixels v1 v2 = some out ∧ out.length = L := by
  refine ⟨mergeSpec v1 v2, alternative_pixels_eq_mergeSpec v1 v2 (by omega) (by omega), ?_⟩
  rw [mergeSpec_length, h1]

theorem alternative_pixels_length_witness :
    ∃ out, alternative_pixels [1, 2, 3, 4, 5, 6, 7, 8] [9, 10, 11, 12, 13, 14, 15, 16]
        = some out ∧ out.length = 8 :=
  alternative_pixels_length _ _ 8 (by decide) (by decide) (by decide)

/-- C5: an out-of-bounds 4-byte window read in `set_rgba` aborts the run
(`none`, the `panic!` branch) rather than truncating; and under the
equal-length multiple-of-4 precondition `alternative_pixels` always
returns `some`, so the abort branch is unreachable. -/
theorem set_rgba_panic_unreachable :
    (∀ (v : List Nat) (i : Nat), v.length < i + 4 → set_rgba v i (i + 3) = none) ∧
    (∀ v1 v2 : List Nat, v1.length = v2.length → 4 ∣ v1.length →
      ∃ out, alternative_pixels v1 v2 = some out) := by
  refine ⟨set_rgba_oob, fun v1 v2 h1 h4 => ?_⟩
  exact ⟨mergeSpec v1 v2, alternative_pixels_eq_mergeSpec v1 v2 (by omega) h4⟩

theorem set_rgba_panic_unreachable_witness :
    set_rgba [1, 2, 3] 1 4 = none ∧
    ∃ out, alternative_pixels [1, 2, 3, 4] [5, 6, 7, 8] = some out :=
  ⟨set_rgba_panic_unreachable.1 [1, 2, 3] 1 (by decide),
    set_rgba_panic_unreachable.2 [1, 2, 3, 4] [5, 6, 7, 8] (by decide) (by decide)⟩

/-- C6: a fresh `FloatingImage` for dimensions `(W, H)` declares capacity
`W*H*4`; `set_data` rejects any longer buffer with `BufferTooSmall`
(leaving the struct unchanged) and accepts any buffer of at most that
length; and when `set_data` fails inside the pipeline, the run ends in the
`BufferTooSmall` error, so no output file is written. -/
theorem floatingImage_capacity_check (w h : Nat) (name : String) (d : Vec8)
    (hcap : h * w * 4 < u32Mod) :
    (d.elems.length > w * h * 4 →
      (FloatingImage.new w h name).set_data d
        = (.error .bufferTooSmall, FloatingImage.new w h name)) ∧
    (d.elems.length ≤ w * h * 4 →
      ((FloatingImage.new w h name).set_data d).1 = .ok ()) ∧
    (∀ (R : DynImage → Nat → Nat → List Nat) (i1 i2 : DynImage) (fmt : ImageFormat)
        (p1 p2 outName : String) (saveOk : Bool) (combined : List Nat),
      combine_images R (standardise_size i1 i2).1 (standardise_size i1 i2).2 = some combined →
      combined.length >
        (FloatingImage.new (standardise_size i1 i2).1.dimensions.1
          (standardise_size i1 i2).1.dimensions.2 outName).data.cap →
      main' R (.image i1 fmt) p1 (.image i2 fmt) p2 outName saveOk
        = some (.error .bufferTooSmall)) := by
  have hc : (FloatingImage.new w h name).data.cap = w * h * 4 := by
    show h * w * 4 % u32Mod = w * h * 4
    rw [Nat.mod_eq_of_lt hcap]
    ring
  refine ⟨fun hgt => ?_, fun hle => ?_, ?_⟩
  · simp only [FloatingImage.set_data]
    rw [if_pos (by rw [hc]; omega)]
  · simp only [FloatingImage.set_data]
    rw [if_neg (by rw [hc]; omega)]
  · intro R i1 i2 fmt p1 p2 outName saveOk combined hcomb hgt
    simp only [main', find_image_from_path]
    rw [if_neg (show ¬ fmt ≠ fmt from fun hne => hne rfl)]
    simp only [hcomb, FloatingImage.set_data]
    rw [if_pos hgt]

theorem floatingImage_capacity_check_witness :
    ((1 : Nat) * 1 * 4 < u32Mod) ∧
    (FloatingImage.new 1 1 "o").set_data { elems := [7, 7, 7, 7, 7], cap := 5 }
        = (.error .bufferTooSmall, FloatingImage.new 1 1 "o") ∧
    main' (fun _ _ _ => List.replicate 8 17) (.image (.src 1 1 (List.replicate 8 7)) .png) "a"
        (.image (.src 1 1 (List.replicate 8 34)) .png) "b" "out" true
      = some (.error .bufferTooSmall) :=
  ⟨by decide,
    (floatingImage_capacity_check 1 1 "o" { elems := [7, 7, 7, 7, 7], cap := 5 }
      (by decide)).1 (by decide),
    (floatingImage_capacity_check 1 1 "o" { elems := [7, 7, 7, 7, 7], cap := 5 }
      (by decide)).2.2 (fun _ _ _ => List.replicate 8 17) (.src 1 1 (List.replicate 8 7))
      (.src 1 1 (List.replicate 8 34)) .png "a" "b" "out" true
      [17, 17, 17, 17, 34, 34, 34, 34] (by decide) (by decide)⟩

/-- C7: when both images load but their container formats differ, the
pipeline returns `DifferentImageFormats` — for every resampler behaviour
and encoder outcome, so before any resample, interleave or save — and the
result is an error, so no output file is created. -/
theorem pipeline_format_mismatch (R : DynImage → Nat → Nat → List Nat)
    (i1 i2 : DynImage) (f1 f2 : ImageFormat) (p1 p2 outName : String) (saveOk : Bool)
    (hne : f1 ≠ f2) :
    main' R (.image i1 f1) p1 (.image i2 f2) p2 outName saveOk
      = some (.error .differentImageFormats) := by
  simp only [main', find_image_from_path]
  rw [if_pos hne]

theorem pipeline_format_mismatch_witness :
    main' (fun _ _ _ => []) (.image (.src 1 1 []) .png) "a" (.image (.src 1 1 []) .jpeg) "b"
        "o" true
      = some (.error .differentImageFormats) :=
  pipeline_format_mismatch (fun _ _ _ => []) (.src 1 1 []) (.src 1 1 []) .png .jpeg
    "a" "b" "o" true (by decide)

/-- C8: the first image returned by `standardise_size` has the reconciled
target dimensions in both branches, so the `FloatingImage` sized from it
is allocated at exactly the target dimensions. -/
theorem output_allocated_at_target (image_1 image_2 : DynImage) (name : String) :
    (standardise_size image_1 image_2).1.dimensions
        = get_smallest_dimensions image_1.dimensions image_2.dimensions ∧
    (FloatingImage.new (standardise_size image_1 image_2).1.dimensions.1
        (standardise_size image_1 image_2).1.dimensions.2 name).width
        = (get_smallest_dimensions image_1.dimensions image_2.dimensions).1 ∧
    (FloatingImage.new (standardise_size image_1 image_2).1.dimensions.1
        (standardise_size image_1 image_2).1.dimensions.2 name).height
        = (get_smallest_dimensions image_1.dimensions image_2.dimensions).2 := by
  have hmain : (standardise_size image_1 image_2).1.dimensions
      = get_smallest_dimensions image_1.dimensions image_2.dimensions := by
    by_cases hc :
      image_2.dimensions = get_smallest_dimensions image_1.dimensions image_2.dimensions
    · simp only [standardise_size, if_pos hc]
      rfl
    · simp only [standardise_size, if_neg hc]
      rcases get_smallest_dimensions_cases image_1.dimensions image_2.dimensions with hg | hg
      · exact hg.symm
      · exact absurd hg.symm hc
  refine ⟨hmain, ?_, ?_⟩
  · rw [hmain]
    rfl
  · rw [hmain]
    rfl

/-- C9: when `bufB` is strictly longer than `bufA` and `bufA`'s length is
a multiple of 4, `alternative_pixels` does not abort: it returns a buffer
of `bufA`'s length following the even/odd window pattern, and `bufB`'s
excess bytes are ignored (truncating `bufB` to `bufA`'s length gives the
same output). -/
theorem alternative_pixels_longer_second (v1 v2 : List Nat)
    (hlt : v1.length < v2.length) (h4 : 4 ∣ v1.length) :
    ∃ out, alternative_pixels v1 v2 = some out ∧ out.length = v1.length ∧
      (∀ i, 4 ∣ i → i + 4 ≤ v1.length →
        (out.drop i).take 4 =
          if i % 8 = 0 then (v1.drop i).take 4 else (v2.drop i).take 4) ∧
      alternative_pixels v1 v2 = alternative_pixels v1 (v2.take v1.length) := by
  have hle : v1.length ≤ v2.length := le_of_lt hlt
  refine ⟨mergeSpec v1 v2, alternative_pixels_eq_mergeSpec v1 v2 hle h4,
    mergeSpec_length v1 v2, fun i h4i hi => mergeSpec_window v1 v2 hle i h4i hi, ?_⟩
  rw [alternative_pixels_eq_mergeSpec v1 v2 hle h4,
    alternative_pixels_eq_mergeSpec v1 (v2.take v1.length)
      (by rw [List.length_take]; omega) h4,
    mergeSpec_take v1 v2 hle]

theorem alternative_pixels_longer_second_witness :
    ∃ out, alternative_pixels [1, 2, 3, 4] [5, 6, 7, 8, 9] = some out ∧
      out.length = ([1, 2, 3, 4] : List Nat).length ∧
      (∀ i, 4 ∣ i → i + 4 ≤ ([1, 2, 3, 4] : List Nat).length →
        (out.drop i).take 4 =
          if i % 8 = 0 then (([1, 2, 3, 4] : List Nat).drop i).take 4
          else (([5, 6, 7, 8, 9] : List Nat).drop i).take 4) ∧
      alternative_pixels [1, 2, 3, 4] [5, 6, 7, 8, 9] =
        alternative_pixels [1, 2, 3, 4]
          (([5, 6, 7, 8, 9] : List Nat).take ([1, 2, 3, 4] : List Nat).length) :=
  alternative_pixels_longer_second [1, 2, 3, 4] [5, 6, 7, 8, 9] (by decide) (by decide)

/-- C10: when `set_data` returns the `BufferTooSmall` error, the
`FloatingImage` is left exactly as it was: width, height, name and the
previously held data are unchanged. -/
theorem set_data_error_unchanged (img : FloatingImage) (d : Vec8) (e : ImageDataErrors)
    (h : (img.set_data d).1 = .error e) :
    (img.set_data d).2.width = img.width ∧
    (img.set_data d).2.height = img.height ∧
    (img.set_data d).2.name = img.name ∧
    (img.set_data d).2.data = img.data ∧
    (img.set_data d).2 = img := by
  by_cases hc : d.elems.length > img.data.cap
  · rw [FloatingImage.set_data, if_pos hc]
    exact ⟨rfl, rfl, rfl, rfl, rfl⟩
  · rw [FloatingImage.set_data, if_neg hc] at h
    exact Except.noConfusion h

theorem set_data_error_unchanged_witness :
    ((FloatingImage.new 1 1 "o").set_data { elems := List.replicate 9 1, cap := 9 }).1
        = .error .bufferTooSmall ∧
    ((FloatingImage.new 1 1 "o").set_data { elems := List.replicate 9 1, cap := 9 }).2
        = FloatingImage.new 1 1 "o" :=
  ⟨by rfl,
    (set_data_error_unchanged (FloatingImage.new 1 1 "o")
      { elems := List.replicate 9 1, cap := 9 } .bufferTooSmall (by rfl)).2.2.2.2⟩
